import Mathlib

/-!
Verification development for the cookcountyjail repository.

The development shallowly embeds:
* the two summary scripts, `scripts/summarize_daily_population.py`
  (`SummarizeDailyPopulation`) and
  `scripts/summarize_daily_population_changes.py`
  (`SummarizeDailyPopulationChanges`);
* the Daily Population Summary Store (`ccj/models/daily_population*.py`,
  whose implementation file is not present in `src/`; modelled from the
  spec, sections 4.2 and 8, and from its tests in
  `tests/test_dpc_model.py`);
* the relational entity schema of `ccj/models/models.py`, together with an
  insertion layer whose constraint enforcement (unique / not-null /
  foreign-key semantics) is modelled from the spec, sections 4.1 and 7,
  since the storage engine backing the declarative schema is external.

HTTP responses are modelled as a status code plus the parsed JSON value of
the body (`loads` is the identity of this embedding); request URLs are
modelled as the exact strings the scripts build, and a small query-string
parser is used to state properties of the query parameters.
-/

/-- A JSON value, the result of `json.loads` on a response body. -/
inductive JValue where
  | null : JValue
  | bool (b : Bool) : JValue
  | num (n : Int) : JValue
  | str (s : String) : JValue
  | arr (elems : List JValue) : JValue
  | obj (fields : List (String × JValue)) : JValue

/-- Dictionary lookup `j[key]` on a parsed JSON value: `some` on an object
having the key, `none` otherwise (Python raises `KeyError`/`TypeError`). -/
def JValue.getKey : JValue → String → Option JValue
  | .obj fields, key => fields.lookup key
  | _, _ => none

/-- Python `len` on a JSON value: defined for arrays, strings and objects. -/
def JValue.pyLen : JValue → Option Nat
  | .arr elems => some elems.length
  | .str s => some s.length
  | .obj fields => some fields.length
  | _ => none

/-- An HTTP response as the scripts observe it: `status_code`, and `text`
modelled as the parsed JSON value of the body. -/
structure Response where
  status_code : Nat
  text : JValue

/-- `cook_county_url` from both scripts. -/
def cook_county_url : String := "http://cookcountyjail.recoveredfactory.net"

/-- `county_inmate_api` from both scripts: `'%s/api/1.0/countyinmate' % cook_county_url`. -/
def county_inmate_api : String := cook_county_url ++ "/api/1.0/countyinmate"

/-- `daily_population_changes_url` from `SummarizeDailyPopulationChanges.date`. -/
def daily_population_changes_url : String :=
  cook_county_url ++ "/api/2.0/daily_population_changes"

/-- `SummarizeDailyPopulation._booked_males_as`:
`len(loads(response.text)['objects'])`. -/
def SummarizeDailyPopulation._booked_males_as (response : Response) : Option Nat :=
  (response.text.getKey "objects").bind JValue.pyLen

/-- `SummarizeDailyPopulationChanges._booked_males_as`:
`len(loads(response.text)['objects'])` (textually identical method). -/
def SummarizeDailyPopulationChanges._booked_males_as (response : Response) : Option Nat :=
  (response.text.getKey "objects").bind JValue.pyLen

/-- The `get_cmd` URL built by `SummarizeDailyPopulation.date`:
`'%s?format=json&limit=0&race=%s&booking_date__exact=%s' % (county_inmate_api, race, date)`
with `race = 'AS'`. -/
def SummarizeDailyPopulation.get_cmd (date : String) : String :=
  let race := "AS"
  county_inmate_api ++ "?format=json&limit=0&race=" ++ race
    ++ "&booking_date__exact=" ++ date

/-- The `get_cmd` URL built by `SummarizeDailyPopulationChanges.date`; the
method rebinds `date = '2013-06-01'` before formatting, shadowing its
parameter. -/
def SummarizeDailyPopulationChanges.get_cmd (date : String) : String :=
  let race := "AS"
  let date := "2013-06-01"
  county_inmate_api ++ "?format=json&limit=0&race=" ++ race
    ++ "&booking_date__exact=" ++ date

/-- An externally visible side effect of a script run, after the initial
GET: a Summary Store write, or a POST to the changes API. -/
inductive Effect where
  | storeWrite (date : String) (booked_males_as : Nat) : Effect
  | post (url : String) (date : String) (booked_males_as : Nat) : Effect
deriving DecidableEq

/-- A fatal error aborting a script run. -/
inductive ScriptError where
  | assertionFailed : ScriptError
  | badBody : ScriptError
deriving DecidableEq

/-- `SummarizeDailyPopulation.date`, given the response the GET produced:
asserts `response.status_code == 200`, then stores
`{'date': date, 'booked_males_as': count}` into the Daily Population store.
A failed assertion or an unusable body aborts with no effect performed. -/
def SummarizeDailyPopulation.run (date : String) (response : Response) :
    Except ScriptError (List Effect) :=
  if response.status_code = 200 then
    match SummarizeDailyPopulation._booked_males_as response with
    | some count => .ok [.storeWrite date count]
    | none => .error .badBody
  else
    .error .assertionFailed

/-- `SummarizeDailyPopulationChanges.date`, given the response the GET
produced: rebinds the date to `'2013-06-01'`, performs no status check, and
POSTs `{'date': date, 'booked_males_as': count}` to the changes API. -/
def SummarizeDailyPopulationChanges.run (date : String) (response : Response) :
    Except ScriptError (List Effect) :=
  let date := "2013-06-01"
  match SummarizeDailyPopulationChanges._booked_males_as response with
  | some count => .ok [.post daily_population_changes_url date count]
  | none => .error .badBody

/-! ### Query-string parsing, used to state properties of the request URLs -/

/-- Split a character list on a separator; boundaries produce empty groups
(like Python `str.split`). -/
def splitOnChar (sep : Char) : List Char → List (List Char)
  | [] => [[]]
  | c :: cs =>
    if c = sep then [] :: splitOnChar sep cs
    else
      match splitOnChar sep cs with
      | [] => [[c]]
      | g :: gs => (c :: g) :: gs

/-- Everything after the first occurrence of a character ([] if absent). -/
def afterChar (sep : Char) : List Char → List Char
  | [] => []
  | c :: cs => if c = sep then cs else afterChar sep cs

/-- Split at the first occurrence of a character: (before, after). -/
def splitAtChar (sep : Char) : List Char → List Char × List Char
  | [] => ([], [])
  | c :: cs =>
    if c = sep then ([], cs)
    else
      let p := splitAtChar sep cs
      (c :: p.1, p.2)

/-- The key-value pairs of a URL's query string. -/
def queryParams (url : String) : List (List Char × List Char) :=
  (splitOnChar '&' (afterChar '?' url.data)).map (splitAtChar '=')

/-- The value of a query parameter of a URL, if present. -/
def getParam (url key : String) : Option (List Char) :=
  (queryParams url).lookup key.data

theorem splitOnChar_ne_nil (sep : Char) (l : List Char) :
    splitOnChar sep l ≠ [] := by
  induction l with
  | nil => simp [splitOnChar]
  | cons c cs ih =>
    simp only [splitOnChar]
    split
    · simp
    · match h : splitOnChar sep cs with
      | [] => exact absurd h ih
      | g :: gs => simp

theorem afterChar_append_cons (sep : Char) (pre suf : List Char)
    (h : sep ∉ pre) : afterChar sep (pre ++ sep :: suf) = suf := by
  induction pre with
  | nil => simp [afterChar]
  | cons c cs ih =>
    have hc : c ≠ sep := fun hc => h (hc ▸ List.mem_cons_self c cs)
    have hcs : sep ∉ cs := fun hm => h (List.mem_cons_of_mem c hm)
    simp [afterChar, hc, ih hcs]

theorem splitOnChar_append (sep : Char) (pre suf : List Char) (h : sep ∉ pre)
    (g : List Char) (gs : List (List Char))
    (hsuf : splitOnChar sep suf = g :: gs) :
    splitOnChar sep (pre ++ suf) = (pre ++ g) :: gs := by
  induction pre with
  | nil => simpa using hsuf
  | cons c cs ih =>
    have hc : c ≠ sep := fun hc => h (hc ▸ List.mem_cons_self c cs)
    have hcs : sep ∉ cs := fun hm => h (List.mem_cons_of_mem c hm)
    simp only [List.cons_append, splitOnChar, hc, if_false]
    rw [show cs.append suf = cs ++ suf from rfl, ih hcs]

theorem splitOnChar_append_cons (sep : Char) (pre suf : List Char)
    (h : sep ∉ pre) :
    splitOnChar sep (pre ++ sep :: suf) = pre :: splitOnChar sep suf := by
  have hstep : splitOnChar sep (sep :: suf) = [] :: splitOnChar sep suf := by
    simp [splitOnChar]
  match hs : splitOnChar sep suf with
  | [] => exact absurd hs (splitOnChar_ne_nil sep suf)
  | g :: gs =>
    have := splitOnChar_append sep pre (sep :: suf) h [] (g :: gs) (by rw [hstep, hs])
    simpa [hs] using this

theorem splitAtChar_append_cons (sep : Char) (pre suf : List Char)
    (h : sep ∉ pre) : splitAtChar sep (pre ++ sep :: suf) = (pre, suf) := by
  induction pre with
  | nil => simp [splitAtChar]
  | cons c cs ih =>
    have hc : c ≠ sep := fun hc => h (hc ▸ List.mem_cons_self c cs)
    have hcs : sep ∉ cs := fun hm => h (List.mem_cons_of_mem c hm)
    simp [splitAtChar, hc, ih hcs]

/-! ### Daily Population Summary Store

The implementation file (`ccj/models/daily_population.py` /
`ccj/models/daily_population_changes.py`) is not present in `src/`; the
store below is modelled from the spec (sections 3, 4.2 and 8) and from its
tests in `src/tests/test_dpc_model.py`. -/

/-- Modelled from the spec: the in-memory state of the Daily Population
Summary Store — an ordered sequence of per-date records, each holding the
nested race-code counts of the `Booked`/`Males` segment, keyed uniquely by
`(date, race)`. Counts are naturals (the spec leaves negative counts as an
`InvalidArgument` policy choice and the tests only use `[0,101]`). -/
structure DailyPopulation where
  records : List (String × List (String × Nat))

/-- Modelled from the spec: a record of the `query()` output, shaped
`{Date: d, Booked: {Males: {race: count, ...}}}`; the `Booked`/`Males`
nesting is fixed, so only the race-to-count map varies. -/
structure SummaryRecord where
  Date : String
  BookedMales : List (String × Nat)
deriving DecidableEq

/-- Modelled from the spec: update the nested race counts of one date
record — overwrite the count of an existing race code, else append it. -/
def updateRaces (races : List (String × Nat)) (race : String) (count : Nat) :
    List (String × Nat) :=
  match races with
  | [] => [(race, count)]
  | (r, c) :: rest =>
    if r = race then (race, count) :: rest
    else (r, c) :: updateRaces rest race count

/-- Modelled from the spec: merge one `(date, race, count)` fact into the
record list — update the record of an existing date, else append a new
date record. -/
def mergeFact (recs : List (String × List (String × Nat)))
    (date race : String) (count : Nat) :
    List (String × List (String × Nat)) :=
  match recs with
  | [] => [(date, [(race, count)])]
  | (d, rs) :: rest =>
    if d = date then (d, updateRaces rs race count) :: rest
    else (d, rs) :: mergeFact rest date race count

/-- Modelled from the spec: `store(entries)` — merge each
`(date, race, count)` fact into the persisted collection in order. -/
def DailyPopulation.store (s : DailyPopulation)
    (facts : List (String × String × Nat)) : DailyPopulation :=
  ⟨facts.foldl (fun recs f => mergeFact recs f.1 f.2.1 f.2.2) s.records⟩

/-- Modelled from the spec: `open(path)` — the backing document either does
not exist yet (`none`, treated as an empty collection) or holds a record
list. -/
def DailyPopulation.openStore
    (doc : Option (List (String × List (String × Nat)))) : DailyPopulation :=
  match doc with
  | none => ⟨[]⟩
  | some recs => ⟨recs⟩

/-- Modelled from the spec: `query()` — the full ordered sequence of stored
records in the nested `{Date, Booked: {Males: {...}}}` shape. -/
def DailyPopulation.query (s : DailyPopulation) : List SummaryRecord :=
  s.records.map (fun p => ⟨p.1, p.2⟩)

/-- Modelled from the spec: `clear()` — remove all records. -/
def DailyPopulation.clear (s : DailyPopulation) : DailyPopulation := ⟨[]⟩

/-- JSON rendering of one race-count map entry, `"AS": 42` style. -/
def raceEntryJson (p : String × Nat) : String :=
  "\"" ++ p.1 ++ "\": " ++ Nat.repr p.2

/-- Join rendered fragments with the `", "` item separator of Python
`json.dumps`. -/
def commaJoin : List String → String
  | [] => ""
  | [x] => x
  | x :: y :: rest => x ++ ", " ++ commaJoin (y :: rest)

/-- JSON rendering of one internal date record. -/
def recordJson (p : String × List (String × Nat)) : String :=
  "\x7b\"Date\": \"" ++ p.1 ++ "\", \"Booked\": \x7b\"Males\": \x7b"
    ++ commaJoin (p.2.map raceEntryJson) ++ "\x7d\x7d\x7d"

/-- Modelled from the spec: `to_json` — serialize the internal record list
to the on-disk JSON array form, with fixed `Date`-then-`Booked` key order
and Python `json.dumps` default separators. -/
def DailyPopulation.to_json (s : DailyPopulation) : String :=
  "[" ++ commaJoin (s.records.map recordJson) ++ "]"

/-- Direct JSON serialization of a race-to-count map, written as its own
recursion (comma handling by explicit cases). -/
def dumpsRaces : List (String × Nat) → String
  | [] => ""
  | [(r, c)] => "\"" ++ r ++ "\": " ++ Nat.repr c
  | (r, c) :: p :: rest =>
    "\"" ++ r ++ "\": " ++ Nat.repr c ++ ", " ++ dumpsRaces (p :: rest)

/-- Direct JSON serialization of one query record. -/
def dumpsRecord (r : SummaryRecord) : String :=
  "\x7b\"Date\": \"" ++ r.Date ++ "\", \"Booked\": \x7b\"Males\": \x7b"
    ++ dumpsRaces r.BookedMales ++ "\x7d\x7d\x7d"

/-- Direct JSON serialization of a list of query records. -/
def dumpsRecords : List SummaryRecord → String
  | [] => ""
  | [r] => dumpsRecord r
  | r :: s :: rest => dumpsRecord r ++ ", " ++ dumpsRecords (s :: rest)

/-- Direct JSON serialization of an expected record list (the
`flask.json.dumps(expected)` side of the tests). -/
def dumps (rs : List SummaryRecord) : String := "[" ++ dumpsRecords rs ++ "]"

/-- The dates of the stored records, in order. -/
def datesOf (recs : List (String × List (String × Nat))) : List String :=
  recs.map Prod.fst

/-- The count stored for a race code within one date record. -/
def lookupRace : List (String × Nat) → String → Option Nat
  | [], _ => none
  | (r, c) :: rest, race => if r = race then some c else lookupRace rest race

/-- The race-count map stored for a date. -/
def lookupDate : List (String × List (String × Nat)) → String →
    Option (List (String × Nat))
  | [], _ => none
  | (d, rs) :: rest, date => if d = date then some rs else lookupDate rest date

/-- The count stored for a `(date, race)` key. -/
def lookupCount (recs : List (String × List (String × Nat)))
    (date race : String) : Option Nat :=
  (lookupDate recs date).bind (fun rs => lookupRace rs race)

/-- The store's key-uniqueness invariant: dates are pairwise distinct, and
within each date record the race codes are pairwise distinct — at most one
record per `(date, segment)` key. -/
def keyNodup (recs : List (String × List (String × Nat))) : Prop :=
  (datesOf recs).Nodup ∧ ∀ p ∈ recs, (p.2.map Prod.fst).Nodup

/-! ### Entity & Temporal Schema (`ccj/models/models.py`)

Row types follow the columns declared in `models.py` (dates kept as
strings). The insertion layer enforcing the declared constraints is not in
`src/` (the schema is declarative, its storage engine external), so
enforcement semantics are modelled from the spec, sections 4.1 and 7. -/

/-- `Person` row: `hash` is `unique=True, nullable=False`; `gender` and
`race` nullable. -/
structure PersonRow where
  id : Nat
  hash : Option String
  gender : Option String
  race : Option String
  date_created : Option String
deriving DecidableEq

/-- `ChargeDescription` row: `description` is `nullable=False, unique=True`. -/
structure ChargeDescriptionRow where
  id : Nat
  description : String
  date_created : Option String
deriving DecidableEq

/-- `Statute` row: `citation` is `nullable=False, unique=True`. -/
structure StatuteRow where
  id : Nat
  citation : String
  date_created : Option String
deriving DecidableEq

/-- `Housing` row: a location record, no uniqueness constraints. -/
structure HousingRow where
  id : Nat
  location : Option String
  division : Option String
  sub_division : Option String
  sub_division_location : Option String
  date_created : Option String
  in_jail : Option Bool
  in_program : Option String
deriving DecidableEq

/-- `CourtBuilding` row. -/
structure CourtBuildingRow where
  id : Nat
  name : Option String
  branch : Option String
  address : Option String
  city : Option String
  state : Option String
  zip : Option String
  date_created : Option String
deriving DecidableEq

/-- `CourtRoom` row: `number` plus a foreign key to `CourtBuilding`. -/
structure CourtRoomRow where
  id : Nat
  number : Option Nat
  court_building_id : Option Nat
  date_created : Option String
deriving DecidableEq

/-- `Stay` row: `jail_id_num` unique; `person_id` a foreign key to
`Person` (required per spec section 4.1: a stay must reference an existing
person). -/
structure StayRow where
  id : Nat
  jail_id_num : Option String
  booking_date : Option String
  bail_amount : Option Nat
  age_at_booking : Option Nat
  weight : Option Nat
  height : Option Nat
  discharge_date : Option String
  last_seen : Option String
  person_id : Nat
  date_created : Option String
deriving DecidableEq

/-- `ChargeHistory` row: foreign keys to `Stay`, `Statute` and
`ChargeDescription` (required per spec section 4.1). -/
structure ChargeHistoryRow where
  id : Nat
  stay_id : Nat
  statute_id : Nat
  charge_description_id : Nat
  date_created : Option String
deriving DecidableEq

/-- `HousingHistory` row: foreign keys to `Stay` and `Housing`. -/
structure HousingHistoryRow where
  id : Nat
  stay_id : Nat
  housing_id : Nat
  date_created : Option String
deriving DecidableEq

/-- `CourtHistory` row: foreign keys to `Stay` and `CourtRoom`. -/
structure CourtHistoryRow where
  id : Nat
  stay_id : Nat
  court_room_id : Nat
  date_created : Option String
deriving DecidableEq

/-- The Entity Store: one table per model class of `models.py`. -/
structure EntityDB where
  persons : List PersonRow
  charge_descriptions : List ChargeDescriptionRow
  statutes : List StatuteRow
  housings : List HousingRow
  court_buildings : List CourtBuildingRow
  court_rooms : List CourtRoomRow
  stays : List StayRow
  charge_histories : List ChargeHistoryRow
  housing_histories : List HousingHistoryRow
  court_histories : List CourtHistoryRow
deriving DecidableEq

/-- The empty Entity Store. -/
def EntityDB.empty : EntityDB := ⟨[], [], [], [], [], [], [], [], [], []⟩

/-- Modelled from the spec (section 7): the error taxonomy surfaced by the
schema layer on a failed insert. -/
inductive DBError where
  | DuplicateKey : DBError
  | ReferentialIntegrity : DBError
  | NotNullViolation : DBError
deriving DecidableEq

/-- Modelled from the spec: insert a `Person`; a null `hash` violates
`nullable=False`, a duplicate `hash` signals `DuplicateKey`. -/
def insertPerson (db : EntityDB) (p : PersonRow) : Except DBError EntityDB :=
  match p.hash with
  | none => .error .NotNullViolation
  | some h =>
    if db.persons.any (fun q => q.hash == some h) then .error .DuplicateKey
    else .ok { db with persons := db.persons ++ [p] }

/-- Modelled from the spec: insert a `ChargeDescription`; a duplicate
`description` signals `DuplicateKey`. -/
def insertChargeDescription (db : EntityDB) (r : ChargeDescriptionRow) :
    Except DBError EntityDB :=
  if db.charge_descriptions.any (fun q => q.description == r.description) then
    .error .DuplicateKey
  else .ok { db with charge_descriptions := db.charge_descriptions ++ [r] }

/-- Modelled from the spec: insert a `Statute`; a duplicate `citation`
signals `DuplicateKey`. -/
def insertStatute (db : EntityDB) (r : StatuteRow) : Except DBError EntityDB :=
  if db.statutes.any (fun q => q.citation == r.citation) then
    .error .DuplicateKey
  else .ok { db with statutes := db.statutes ++ [r] }

/-- Modelled from the spec: insert a `Housing` row (no constraints). -/
def insertHousing (db : EntityDB) (r : HousingRow) : Except DBError EntityDB :=
  .ok { db with housings := db.housings ++ [r] }

/-- Modelled from the spec: insert a `CourtBuilding` row (no constraints). -/
def insertCourtBuilding (db : EntityDB) (r : CourtBuildingRow) :
    Except DBError EntityDB :=
  .ok { db with court_buildings := db.court_buildings ++ [r] }

/-- Modelled from the spec: insert a `CourtRoom`; a non-null
`court_building_id` must reference an existing building. -/
def insertCourtRoom (db : EntityDB) (r : CourtRoomRow) :
    Except DBError EntityDB :=
  match r.court_building_id with
  | none => .ok { db with court_rooms := db.court_rooms ++ [r] }
  | some b =>
    if db.court_buildings.any (fun q => q.id == b) then
      .ok { db with court_rooms := db.court_rooms ++ [r] }
    else .error .ReferentialIntegrity

/-- Modelled from the spec: insert a `Stay`; `person_id` must reference an
existing `Person`, and a duplicate `jail_id_num` signals `DuplicateKey`. -/
def insertStay (db : EntityDB) (s : StayRow) : Except DBError EntityDB :=
  if db.persons.any (fun q => q.id == s.person_id) then
    if s.jail_id_num.isSome
        && db.stays.any (fun q => q.jail_id_num == s.jail_id_num) then
      .error .DuplicateKey
    else .ok { db with stays := db.stays ++ [s] }
  else .error .ReferentialIntegrity

/-- Modelled from the spec: insert a `ChargeHistory`; `stay_id`,
`statute_id` and `charge_description_id` must reference existing rows. -/
def insertChargeHistory (db : EntityDB) (r : ChargeHistoryRow) :
    Except DBError EntityDB :=
  if db.stays.any (fun q => q.id == r.stay_id) then
    if db.statutes.any (fun q => q.id == r.statute_id) then
      if db.charge_descriptions.any
          (fun q => q.id == r.charge_description_id) then
        .ok { db with charge_histories := db.charge_histories ++ [r] }
      else .error .ReferentialIntegrity
    else .error .ReferentialIntegrity
  else .error .ReferentialIntegrity

/-- Modelled from the spec: insert a `HousingHistory`; `stay_id` and
`housing_id` must reference existing rows. -/
def insertHousingHistory (db : EntityDB) (r : HousingHistoryRow) :
    Except DBError EntityDB :=
  if db.stays.any (fun q => q.id == r.stay_id) then
    if db.housings.any (fun q => q.id == r.housing_id) then
      .ok { db with housing_histories := db.housing_histories ++ [r] }
    else .error .ReferentialIntegrity
  else .error .ReferentialIntegrity

/-- Modelled from the spec: insert a `CourtHistory`; `stay_id` and
`court_room_id` must reference existing rows. -/
def insertCourtHistory (db : EntityDB) (r : CourtHistoryRow) :
    Except DBError EntityDB :=
  if db.stays.any (fun q => q.id == r.stay_id) then
    if db.court_rooms.any (fun q => q.id == r.court_room_id) then
      .ok { db with court_histories := db.court_histories ++ [r] }
    else .error .ReferentialIntegrity
  else .error .ReferentialIntegrity

/-- One insertion request against the Entity Store. -/
inductive DBOp where
  | person (r : PersonRow) : DBOp
  | chargeDescription (r : ChargeDescriptionRow) : DBOp
  | statute (r : StatuteRow) : DBOp
  | housing (r : HousingRow) : DBOp
  | courtBuilding (r : CourtBuildingRow) : DBOp
  | courtRoom (r : CourtRoomRow) : DBOp
  | stay (r : StayRow) : DBOp
  | chargeHistory (r : ChargeHistoryRow) : DBOp
  | housingHistory (r : HousingHistoryRow) : DBOp
  | courtHistory (r : CourtHistoryRow) : DBOp
deriving DecidableEq

/-- Apply one insertion request. -/
def applyOp (db : EntityDB) : DBOp → Except DBError EntityDB
  | .person r => insertPerson db r
  | .chargeDescription r => insertChargeDescription db r
  | .statute r => insertStatute db r
  | .housing r => insertHousing db r
  | .courtBuilding r => insertCourtBuilding db r
  | .courtRoom r => insertCourtRoom db r
  | .stay r => insertStay db r
  | .chargeHistory r => insertChargeHistory db r
  | .housingHistory r => insertHousingHistory db r
  | .courtHistory r => insertCourtHistory db r

/-- Apply a sequence of insertion requests; a failed insert is surfaced to
the caller and leaves the store unchanged. -/
def applyOps (db : EntityDB) : List DBOp → EntityDB
  | [] => db
  | op :: rest =>
    match applyOp db op with
    | .ok db2 => applyOps db2 rest
    | .error _ => applyOps db rest

/-- Referential integrity of the Entity Store: every history row references
an existing stay and existing reference entities, and every stay references
an existing person. -/
def refIntegrity (db : EntityDB) : Prop :=
  (∀ s ∈ db.stays, ∃ p ∈ db.persons, p.id = s.person_id) ∧
  (∀ r ∈ db.charge_histories,
    (∃ s ∈ db.stays, s.id = r.stay_id) ∧
    (∃ st ∈ db.statutes, st.id = r.statute_id) ∧
    (∃ cd ∈ db.charge_descriptions, cd.id = r.charge_description_id)) ∧
  (∀ r ∈ db.housing_histories,
    (∃ s ∈ db.stays, s.id = r.stay_id) ∧
    (∃ h ∈ db.housings, h.id = r.housing_id)) ∧
  (∀ r ∈ db.court_histories,
    (∃ s ∈ db.stays, s.id = r.stay_id) ∧
    (∃ c ∈ db.court_rooms, c.id = r.court_room_id))

/-- The `Person.hash` invariant: every stored hash is non-null and the
hashes are pairwise distinct. -/
def hashIntegrity (db : EntityDB) : Prop :=
  (∀ p ∈ db.persons, p.hash ≠ none) ∧
  (db.persons.map PersonRow.hash).Nodup

/-! ### Theorems about the summary scripts -/

theorem lookup_cons_ne (a k : List Char) (v : List Char)
    (es : List (List Char × List Char)) (h : (a == k) = false) :
    List.lookup a ((k, v) :: es) = List.lookup a es := by
  simp [List.lookup, h]

theorem lookup_cons_eq (a k : List Char) (v : List Char)
    (es : List (List Char × List Char)) (h : (a == k) = true) :
    List.lookup a ((k, v) :: es) = some v := by
  simp [List.lookup, h]

/-- The query parameters of the population script's GET URL, for any target
date: `format`, `limit`, `race` and `booking_date__exact`, in this order,
where the `booking_date__exact` value is the first `&`-free chunk of the
supplied date. -/
theorem pop_queryParams (d : String) (g : List Char) (gs : List (List Char))
    (hd : splitOnChar '&' d.data = g :: gs) :
    queryParams (SummarizeDailyPopulation.get_cmd d) =
      ("format".data, "json".data) :: ("limit".data, "0".data)
        :: ("race".data, "AS".data)
        :: ("booking_date__exact".data, g) :: gs.map (splitAtChar '=') := by
  have hurl : (SummarizeDailyPopulation.get_cmd d).data
      = "http://cookcountyjail.recoveredfactory.net/api/1.0/countyinmate".data
        ++ '?' :: ("format=json".data ++ '&' :: ("limit=0".data
        ++ '&' :: ("race=AS".data
        ++ '&' :: ("booking_date__exact=".data ++ d.data)))) := rfl
  unfold queryParams
  rw [hurl, afterChar_append_cons _ _ _ (by decide),
    splitOnChar_append_cons _ _ _ (by decide),
    splitOnChar_append_cons _ _ _ (by decide),
    splitOnChar_append_cons _ _ _ (by decide),
    splitOnChar_append '&' "booking_date__exact=".data d.data (by decide)
      g gs hd,
    show ("booking_date__exact=".data ++ g : List Char)
      = "booking_date__exact".data ++ '=' :: g from rfl]
  simp only [List.map_cons, List.cons.injEq]
  exact ⟨by decide, by decide, by decide,
    splitAtChar_append_cons '=' _ g (by decide), trivial⟩

/-- C10: for every supplied date, the race code in the GET URL of both
scripts is the fixed constant `AS` (neither `date` method takes a race
argument, and both bind `race = 'AS'` locally). -/
theorem race_param_fixed_AS (d : String) :
    getParam (SummarizeDailyPopulation.get_cmd d) "race" = some "AS".data ∧
    getParam (SummarizeDailyPopulationChanges.get_cmd d) "race"
      = some "AS".data := by
  constructor
  · obtain ⟨g, gs, hd⟩ : ∃ g gs, splitOnChar '&' d.data = g :: gs := by
      match h : splitOnChar '&' d.data with
      | [] => exact absurd h (splitOnChar_ne_nil '&' d.data)
      | g :: gs => exact ⟨g, gs, rfl⟩
    unfold getParam
    rw [pop_queryParams d g gs hd,
      lookup_cons_ne _ _ _ _ (by decide),
      lookup_cons_ne _ _ _ _ (by decide),
      lookup_cons_eq _ _ _ _ (by decide)]
  · rw [show SummarizeDailyPopulationChanges.get_cmd d
        = SummarizeDailyPopulationChanges.get_cmd "" from rfl]
    decide

/-- C1 (failing input): `SummarizeDailyPopulationChanges.date` called with
target date `2013-10-18` issues a GET whose `booking_date__exact` parameter
is the hardcoded `2013-06-01`, not the supplied date — the method rebinds
`date = '2013-06-01'`, shadowing its parameter. -/
theorem changes_script_ignores_supplied_date :
    getParam (SummarizeDailyPopulationChanges.get_cmd "2013-10-18")
        "booking_date__exact" = some "2013-06-01".data ∧
    getParam (SummarizeDailyPopulationChanges.get_cmd "2013-10-18")
        "booking_date__exact" ≠ some "2013-10-18".data := by
  constructor
  · decide
  · decide

/-- C2 (counterexample): on an HTTP 500 response the changes script does
not abort — it computes the count and performs its POST anyway (there is no
status assertion in `SummarizeDailyPopulationChanges.date`). -/
theorem changes_script_posts_on_non_200 :
    SummarizeDailyPopulationChanges.run "2013-10-18"
        ⟨500, JValue.obj [("objects", JValue.arr [])]⟩
      = Except.ok [Effect.post daily_population_changes_url "2013-06-01" 0]
    ∧ (500 : Nat) ≠ 200 := ⟨rfl, by decide⟩

/-- C2 (amended): a non-200 response makes `SummarizeDailyPopulation.date`
fail on its status assertion before any count is computed or store write
performed; `SummarizeDailyPopulationChanges.date` performs no status check
at all — its behavior is independent of the response status, so it issues
its POST even on a non-200 response. -/
theorem non200_fatal_population_only :
    (∀ (d : String) (resp : Response), resp.status_code ≠ 200 →
      SummarizeDailyPopulation.run d resp
        = Except.error ScriptError.assertionFailed) ∧
    (∀ (d : String) (body : JValue) (s₁ s₂ : Nat),
      SummarizeDailyPopulationChanges.run d ⟨s₁, body⟩
        = SummarizeDailyPopulationChanges.run d ⟨s₂, body⟩) := by
  constructor
  · intro d resp h
    unfold SummarizeDailyPopulation.run
    rw [if_neg h]
  · intro d body s₁ s₂
    rfl

/-- Witness for C2 (amended) at status 500. -/
theorem non200_fatal_population_only_witness :
    (Response.mk 500 (JValue.obj [])).status_code ≠ 200 ∧
    SummarizeDailyPopulation.run "2013-10-18" ⟨500, JValue.obj []⟩
      = Except.error ScriptError.assertionFailed :=
  ⟨by decide,
   non200_fatal_population_only.1 "2013-10-18" ⟨500, JValue.obj []⟩ (by decide)⟩

/-- C9: on a body whose `objects` key holds an array, both scripts'
`_booked_males_as` computes exactly the length of that array. -/
theorem count_equals_objects_length (resp : Response) (xs : List JValue)
    (h : resp.text.getKey "objects" = some (JValue.arr xs)) :
    SummarizeDailyPopulation._booked_males_as resp = some xs.length ∧
    SummarizeDailyPopulationChanges._booked_males_as resp
      = some xs.length := by
  unfold SummarizeDailyPopulation._booked_males_as
    SummarizeDailyPopulationChanges._booked_males_as
  rw [h]
  exact ⟨rfl, rfl⟩

/-- Witness for C9 on a two-element `objects` array. -/
theorem count_equals_objects_length_witness :
    (Response.mk 200
        (JValue.obj [("objects", JValue.arr [JValue.null, JValue.null])])).text.getKey
        "objects" = some (JValue.arr [JValue.null, JValue.null]) ∧
    SummarizeDailyPopulation._booked_males_as
        ⟨200, JValue.obj [("objects", JValue.arr [JValue.null, JValue.null])]⟩
      = some 2 ∧
    SummarizeDailyPopulationChanges._booked_males_as
        ⟨200, JValue.obj [("objects", JValue.arr [JValue.null, JValue.null])]⟩
      = some 2 :=
  ⟨rfl,
    (count_equals_objects_length
      ⟨200, JValue.obj [("objects", JValue.arr [JValue.null, JValue.null])]⟩
      [JValue.null, JValue.null] rfl).1,
    (count_equals_objects_length
      ⟨200, JValue.obj [("objects", JValue.arr [JValue.null, JValue.null])]⟩
      [JValue.null, JValue.null] rfl).2⟩

/-! ### Theorems about the Daily Population Summary Store -/

/-- C7: opening the store at a path with no backing document yields a valid
(empty) store, and `query()` on it returns an empty sequence. -/
theorem open_missing_then_query_empty :
    (DailyPopulation.openStore none).query = [] := rfl

/-- C5: storing the single fact `("2013-10-18", "AS", N)` with `N ≤ 101`
into a freshly opened empty store makes `query()` return exactly the
one-element sequence `[{Date: "2013-10-18", Booked: {Males: {AS: N}}}]`. -/
theorem store_one_fact_query (N : Nat) (h : N ≤ 101) :
    ((DailyPopulation.openStore none).store [("2013-10-18", "AS", N)]).query
      = [⟨"2013-10-18", [("AS", N)]⟩] := rfl

/-- Witness for C5 at `N = 42`. -/
theorem store_one_fact_query_witness :
    (42 : Nat) ≤ 101 ∧
    ((DailyPopulation.openStore none).store [("2013-10-18", "AS", 42)]).query
      = [⟨"2013-10-18", [("AS", 42)]⟩] :=
  ⟨by decide, store_one_fact_query 42 (by decide)⟩

theorem commaJoin_map_races (races : List (String × Nat)) :
    commaJoin (races.map raceEntryJson) = dumpsRaces races := by
  match races with
  | [] => rfl
  | [(r, c)] => rfl
  | (r, c) :: (r2, c2) :: rest =>
    have ih := commaJoin_map_races ((r2, c2) :: rest)
    simp only [List.map_cons] at ih ⊢
    rw [show commaJoin (raceEntryJson (r, c) :: raceEntryJson (r2, c2)
          :: List.map raceEntryJson rest)
        = raceEntryJson (r, c) ++ ", "
          ++ commaJoin (raceEntryJson (r2, c2) :: List.map raceEntryJson rest)
        from rfl, ih]
    rfl

theorem recordJson_eq_dumpsRecord (p : String × List (String × Nat)) :
    recordJson p = dumpsRecord ⟨p.1, p.2⟩ := by
  unfold recordJson dumpsRecord
  rw [commaJoin_map_races]

theorem commaJoin_map_records (recs : List (String × List (String × Nat))) :
    commaJoin (recs.map recordJson)
      = dumpsRecords (recs.map (fun p => ⟨p.1, p.2⟩)) := by
  match recs with
  | [] => rfl
  | [p] =>
    simp only [List.map_cons, List.map_nil]
    rw [show commaJoin [recordJson p] = recordJson p from rfl,
      show dumpsRecords [(⟨p.1, p.2⟩ : SummaryRecord)]
        = dumpsRecord ⟨p.1, p.2⟩ from rfl]
    exact recordJson_eq_dumpsRecord p
  | p :: q :: rest =>
    have ih := commaJoin_map_records (q :: rest)
    simp only [List.map_cons] at ih ⊢
    rw [show commaJoin (recordJson p :: recordJson q
          :: List.map recordJson rest)
        = recordJson p ++ ", "
          ++ commaJoin (recordJson q :: List.map recordJson rest) from rfl,
      ih,
      show dumpsRecords ((⟨p.1, p.2⟩ : SummaryRecord)
          :: (⟨q.1, q.2⟩ : SummaryRecord)
          :: List.map (fun p => (⟨p.1, p.2⟩ : SummaryRecord)) rest)
        = dumpsRecord ⟨p.1, p.2⟩ ++ ", "
          ++ dumpsRecords ((⟨q.1, q.2⟩ : SummaryRecord)
            :: List.map (fun p => (⟨p.1, p.2⟩ : SummaryRecord)) rest)
        from rfl,
      recordJson_eq_dumpsRecord p]

/-- C6: for every store state, `to_json` is byte-identical to the direct
JSON serialization of the record list returned by `query()`. -/
theorem to_json_eq_dumps_query (s : DailyPopulation) :
    s.to_json = dumps s.query := by
  unfold DailyPopulation.to_json dumps DailyPopulation.query
  rw [commaJoin_map_records]

theorem lookupRace_mem (rs : List (String × Nat)) (r : String)
    (h : lookupRace rs r ≠ none) : r ∈ rs.map Prod.fst := by
  induction rs with
  | nil => simp [lookupRace] at h
  | cons p rest ih =>
    by_cases hr : p.1 = r
    · simp [hr]
    · obtain ⟨r0, c0⟩ := p
      simp only at hr
      simp only [lookupRace, if_neg hr] at h
      simp [ih h]

theorem lookupDate_mem (recs : List (String × List (String × Nat)))
    (d : String) (rs : List (String × Nat))
    (h : lookupDate recs d = some rs) : d ∈ datesOf recs := by
  induction recs with
  | nil => simp [lookupDate] at h
  | cons p rest ih =>
    obtain ⟨d0, rs0⟩ := p
    by_cases hd : d0 = d
    · simp [datesOf, hd]
    · simp only [lookupDate, if_neg hd] at h
      simp [datesOf] at ih ⊢
      exact Or.inr (ih h)

theorem updateRaces_keys_mem (rs : List (String × Nat)) (r : String) (c : Nat)
    (h : r ∈ rs.map Prod.fst) :
    (updateRaces rs r c).map Prod.fst = rs.map Prod.fst := by
  induction rs with
  | nil => simp at h
  | cons p rest ih =>
    obtain ⟨r0, c0⟩ := p
    by_cases hr : r0 = r
    · simp [updateRaces, if_pos hr, hr]
    · simp only [List.map_cons, List.mem_cons] at h
      rcases h with h | h
    
      · exact absurd h.symm hr
      · simp [updateRaces, if_neg hr, ih h]

theorem updateRaces_keys_not_mem (rs : List (String × Nat)) (r : String)
    (c : Nat) (h : r ∉ rs.map Prod.fst) :
    (updateRaces rs r c).map Prod.fst = rs.map Prod.fst ++ [r] := by
  induction rs with
  | nil => simp [updateRaces]
  | cons p rest ih =>
    obtain ⟨r0, c0⟩ := p
    simp only [List.map_cons, List.mem_cons] at h
    push_neg at h
    have hr : r0 ≠ r := fun he => h.1 he.symm
    simp [updateRaces, if_neg hr, ih h.2]

theorem lookupRace_updateRaces (rs : List (String × Nat)) (r : String)
    (c : Nat) : lookupRace (updateRaces rs r c) r = some c := by
  induction rs with
  | nil => simp [updateRaces, lookupRace]
  | cons p rest ih =>
    obtain ⟨r0, c0⟩ := p
    by_cases hr : r0 = r
    · simp [updateRaces, if_pos hr, lookupRace]
    · simp [updateRaces, if_neg hr, lookupRace, hr, ih]

theorem updateRaces_nodup (rs : List (String × Nat)) (r : String) (c : Nat)
    (h : (rs.map Prod.fst).Nodup) :
    ((updateRaces rs r c).map Prod.fst).Nodup := by
  by_cases hm : r ∈ rs.map Prod.fst
  · rw [updateRaces_keys_mem rs r c hm]
    exact h
  · rw [updateRaces_keys_not_mem rs r c hm]
    simp [List.nodup_append, h, hm]

theorem mergeFact_dates_mem (recs : List (String × List (String × Nat)))
    (d r : String) (c : Nat) (h : d ∈ datesOf recs) :
    datesOf (mergeFact recs d r c) = datesOf recs := by
  induction recs with
  | nil => simp [datesOf] at h
  | cons p rest ih =>
    obtain ⟨d0, rs0⟩ := p
    by_cases hd : d0 = d
    · simp [mergeFact, if_pos hd, datesOf]
    · simp only [datesOf, List.map_cons, List.mem_cons] at h
      rcases h with h | h
      · exact absurd h.symm hd
      · simp only [mergeFact, if_neg hd]
        simp only [datesOf, List.map_cons] at ih ⊢
        rw [ih h]

theorem mergeFact_dates_not_mem (recs : List (String × List (String × Nat)))
    (d r : String) (c : Nat) (h : d ∉ datesOf recs) :
    datesOf (mergeFact recs d r c) = datesOf recs ++ [d] := by
  induction recs with
  | nil => simp [mergeFact, datesOf]
  | cons p rest ih =>
    obtain ⟨d0, rs0⟩ := p
    simp only [datesOf, List.map_cons, List.mem_cons] at h
    push_neg at h
    have hd : d0 ≠ d := fun he => h.1 he.symm
    simp only [mergeFact, if_neg hd]
    simp only [datesOf, List.map_cons] at ih ⊢
    rw [ih h.2]
    simp

theorem lookupDate_mergeFact (recs : List (String × List (String × Nat)))
    (d r : String) (c : Nat) (rs : List (String × Nat))
    (h : lookupDate recs d = some rs) :
    lookupDate (mergeFact recs d r c) d = some (updateRaces rs r c) := by
  induction recs with
  | nil => simp [lookupDate] at h
  | cons p rest ih =>
    obtain ⟨d0, rs0⟩ := p
    by_cases hd : d0 = d
    · simp only [lookupDate, if_pos hd] at h
      injection h with h
      simp [mergeFact, if_pos hd, lookupDate, hd, h]
    · simp only [lookupDate, if_neg hd] at h
      simp [mergeFact, if_neg hd, lookupDate, ih h]

theorem mergeFact_keyNodup (recs : List (String × List (String × Nat)))
    (d r : String) (c : Nat) (h : keyNodup recs) :
    keyNodup (mergeFact recs d r c) := by
  induction recs with
  | nil =>
    refine ⟨by simp [mergeFact, datesOf], ?_⟩
    intro p hp
    simp only [mergeFact, List.mem_singleton] at hp
    subst hp
    simp
  | cons q rest ih =>
    obtain ⟨d0, rs0⟩ := q
    obtain ⟨hdates, hraces⟩ := h
    simp only [datesOf, List.map_cons, List.nodup_cons] at hdates
    by_cases hd : d0 = d
    · refine ⟨?_, ?_⟩
      · simp only [mergeFact, if_pos hd, datesOf, List.map_cons,
          List.nodup_cons]
        exact hdates
      · intro p hp
        simp only [mergeFact, if_pos hd, List.mem_cons] at hp
        rcases hp with hp | hp
        · subst hp
          exact updateRaces_nodup rs0 r c (hraces (d0, rs0) (by simp))
        · exact hraces p (List.mem_cons_of_mem _ hp)
    · have hrest : keyNodup rest :=
        ⟨hdates.2, fun p hp => hraces p (List.mem_cons_of_mem _ hp)⟩
      have ihm := ih hrest
      refine ⟨?_, ?_⟩
      · simp only [mergeFact, if_neg hd, datesOf, List.map_cons,
          List.nodup_cons]
        constructor
        · by_cases hm : d ∈ datesOf rest
          · rw [show (mergeFact rest d r c).map Prod.fst
                = datesOf (mergeFact rest d r c) from rfl,
              mergeFact_dates_mem rest d r c hm]
            exact hdates.1
          · rw [show (mergeFact rest d r c).map Prod.fst
                = datesOf (mergeFact rest d r c) from rfl,
              mergeFact_dates_not_mem rest d r c hm]
            simp only [List.mem_append, List.mem_singleton]
            rintro (hin | he)
            · exact hdates.1 hin
            · exact hd he
        · exact ihm.1
      · intro p hp
        simp only [mergeFact, if_neg hd, List.mem_cons] at hp
        rcases hp with hp | hp
        · subst hp
          exact hraces (d0, rs0) (by simp)
        · exact ihm.2 p hp

theorem store_foldl_keyNodup (facts : List (String × String × Nat))
    (recs : List (String × List (String × Nat))) (h : keyNodup recs) :
    keyNodup (facts.foldl
      (fun recs f => mergeFact recs f.1 f.2.1 f.2.2) recs) := by
  induction facts generalizing recs with
  | nil => exact h
  | cons f rest ih =>
    exact ih _ (mergeFact_keyNodup recs f.1 f.2.1 f.2.2 h)

theorem lookupRace_updateRaces_ne (rs : List (String × Nat)) (r : String)
    (c : Nat) (r2 : String) (h : r2 ≠ r) :
    lookupRace (updateRaces rs r c) r2 = lookupRace rs r2 := by
  induction rs with
  | nil =>
    have hne : r ≠ r2 := fun he => h he.symm
    simp [updateRaces, lookupRace, hne]
  | cons p rest ih =>
    obtain ⟨r0, c0⟩ := p
    by_cases hr : r0 = r
    · have hne : r ≠ r2 := fun he => h he.symm
      have hne0 : r0 ≠ r2 := by rw [hr]; exact hne
      simp [updateRaces, if_pos hr, lookupRace, hne, hne0]
    · simp [updateRaces, if_neg hr, lookupRace, ih]

theorem lookupDate_mergeFact_none
    (recs : List (String × List (String × Nat))) (d r : String) (c : Nat)
    (h : lookupDate recs d = none) :
    lookupDate (mergeFact recs d r c) d = some [(r, c)] := by
  induction recs with
  | nil => simp [mergeFact, lookupDate]
  | cons p rest ih =>
    obtain ⟨d0, rs0⟩ := p
    by_cases hd : d0 = d
    · simp [lookupDate, if_pos hd] at h
    · simp only [lookupDate, if_neg hd] at h
      simp [mergeFact, if_neg hd, lookupDate, ih h]

/-- C3: (1) any sequence of store operations starting from an empty store
yields at most one record per `(date, race)` key — dates are pairwise
distinct and race codes within each date record are pairwise distinct;
(2) storing a fact for an existing `(date, race)` key overwrites that count
in place — the new count is retrievable, the date list is unchanged and the
date's nested race keys are unchanged; (3) storing a fact for an existing
date (any race code) keeps a single record for that date — the date list is
unchanged, so no second record for that date is created; (4) after any
single store operation the stored count is retrievable under its
`(date, race)` key; (5) storing a fact for an existing date with a race
code not yet present merges it into that date's single record: the date
list is unchanged, the record keeps its old race keys plus the new one at
the end, the new count is retrievable, and the counts of the other race
codes are unchanged. -/
theorem store_key_uniqueness :
    (∀ facts : List (String × String × Nat),
      keyNodup ((DailyPopulation.openStore none).store facts).records) ∧
    (∀ recs d r c, lookupCount recs d r ≠ none →
      lookupCount (mergeFact recs d r c) d r = some c ∧
      datesOf (mergeFact recs d r c) = datesOf recs ∧
      (lookupDate (mergeFact recs d r c) d).map (List.map Prod.fst)
        = (lookupDate recs d).map (List.map Prod.fst)) ∧
    (∀ recs d r c, d ∈ datesOf recs →
      datesOf (mergeFact recs d r c) = datesOf recs) ∧
    (∀ recs d r c, lookupCount (mergeFact recs d r c) d r = some c) ∧
    (∀ recs d r c rs, lookupDate recs d = some rs → r ∉ rs.map Prod.fst →
      datesOf (mergeFact recs d r c) = datesOf recs ∧
      lookupDate (mergeFact recs d r c) d = some (updateRaces rs r c) ∧
      (updateRaces rs r c).map Prod.fst = rs.map Prod.fst ++ [r] ∧
      lookupRace (updateRaces rs r c) r = some c ∧
      ∀ r2, r2 ≠ r →
        lookupRace (updateRaces rs r c) r2 = lookupRace rs r2) := by
  refine ⟨?_, ?_, mergeFact_dates_mem, ?_, ?_⟩
  · intro facts
    exact store_foldl_keyNodup facts [] ⟨by simp [datesOf], by simp⟩
  · intro recs d r c h
    match hld : lookupDate recs d with
    | none => simp [lookupCount, hld] at h
    | some rs =>
      simp only [lookupCount, hld, Option.bind_some] at h
      have hmem : r ∈ rs.map Prod.fst := lookupRace_mem rs r h
      have hmerge := lookupDate_mergeFact recs d r c rs hld
      refine ⟨?_, ?_, ?_⟩
      · simp [lookupCount, hmerge, lookupRace_updateRaces]
      · exact mergeFact_dates_mem recs d r c (lookupDate_mem recs d rs hld)
      · rw [hmerge]
        simp [updateRaces_keys_mem rs r c hmem]
  · intro recs d r c
    match hld : lookupDate recs d with
    | none =>
      have hmerge := lookupDate_mergeFact_none recs d r c hld
      simp [lookupCount, hmerge, lookupRace]
    | some rs =>
      have hmerge := lookupDate_mergeFact recs d r c rs hld
      simp [lookupCount, hmerge, lookupRace_updateRaces]
  · intro recs d r c rs hld hmem
    exact ⟨mergeFact_dates_mem recs d r c (lookupDate_mem recs d rs hld),
      lookupDate_mergeFact recs d r c rs hld,
      updateRaces_keys_not_mem rs r c hmem,
      lookupRace_updateRaces rs r c,
      fun r2 hr2 => lookupRace_updateRaces_ne rs r c r2 hr2⟩

/-- Witness for C3 on a one-record store: overwriting `(2013-10-18, AS)`,
and merging the new race `B` into the existing date record — the record
keeps key `AS` with its old count and gains key `B` with the new count. -/
theorem store_key_uniqueness_witness :
    keyNodup ((DailyPopulation.openStore none).store
      [("2013-10-18", "AS", 5), ("2013-10-18", "B", 3),
        ("2013-10-18", "AS", 7)]).records ∧
    (lookupCount [("2013-10-18", [("AS", 5)])] "2013-10-18" "AS" ≠ none ∧
      lookupCount (mergeFact [("2013-10-18", [("AS", 5)])]
        "2013-10-18" "AS" 9) "2013-10-18" "AS" = some 9 ∧
      datesOf (mergeFact [("2013-10-18", [("AS", 5)])] "2013-10-18" "AS" 9)
        = datesOf [("2013-10-18", [("AS", 5)])] ∧
      (lookupDate (mergeFact [("2013-10-18", [("AS", 5)])]
          "2013-10-18" "AS" 9) "2013-10-18").map (List.map Prod.fst)
        = (lookupDate [("2013-10-18", [("AS", 5)])] "2013-10-18").map
            (List.map Prod.fst)) ∧
    ("2013-10-18" ∈ datesOf [("2013-10-18", [("AS", 5)])] ∧
      datesOf (mergeFact [("2013-10-18", [("AS", 5)])] "2013-10-18" "B" 3)
        = datesOf [("2013-10-18", [("AS", 5)])]) ∧
    lookupCount (mergeFact [("2013-10-18", [("AS", 5)])]
      "2013-10-18" "B" 3) "2013-10-18" "B" = some 3 ∧
    (lookupDate [("2013-10-18", [("AS", 5)])] "2013-10-18"
        = some [("AS", 5)] ∧
      "B" ∉ ([("AS", 5)] : List (String × Nat)).map Prod.fst ∧
      datesOf (mergeFact [("2013-10-18", [("AS", 5)])] "2013-10-18" "B" 3)
        = datesOf [("2013-10-18", [("AS", 5)])] ∧
      lookupDate (mergeFact [("2013-10-18", [("AS", 5)])]
          "2013-10-18" "B" 3) "2013-10-18"
        = some (updateRaces [("AS", 5)] "B" 3) ∧
      (updateRaces [("AS", 5)] "B" 3).map Prod.fst
        = ([("AS", 5)] : List (String × Nat)).map Prod.fst ++ ["B"] ∧
      lookupRace (updateRaces [("AS", 5)] "B" 3) "B" = some 3 ∧
      ∀ r2, r2 ≠ "B" →
        lookupRace (updateRaces [("AS", 5)] "B" 3) r2
          = lookupRace [("AS", 5)] r2) :=
  ⟨store_key_uniqueness.1 _,
   ⟨by decide,
    store_key_uniqueness.2.1 [("2013-10-18", [("AS", 5)])]
      "2013-10-18" "AS" 9 (by decide)⟩,
   ⟨by decide,
    store_key_uniqueness.2.2.1 [("2013-10-18", [("AS", 5)])]
      "2013-10-18" "B" 3 (by decide)⟩,
   store_key_uniqueness.2.2.2.1 [("2013-10-18", [("AS", 5)])]
     "2013-10-18" "B" 3,
   ⟨by decide, by decide,
    store_key_uniqueness.2.2.2.2 [("2013-10-18", [("AS", 5)])]
      "2013-10-18" "B" 3 [("AS", 5)] (by decide) (by decide)⟩⟩

/-! ### Theorems about the entity schema -/

theorem exists_of_any_id {α : Type} (l : List α) (f : α → Nat) (i : Nat)
    (h : l.any (fun q => f q == i) = true) : ∃ q ∈ l, f q = i := by
  simpa using h

theorem exists_mem_append_left {α : Type} {l l2 : List α} {P : α → Prop}
    (h : ∃ x ∈ l, P x) : ∃ x ∈ l ++ l2, P x := by
  obtain ⟨x, hx, hp⟩ := h
  exact ⟨x, List.mem_append_left _ hx, hp⟩

theorem insertPerson_ok (db : EntityDB) (p : PersonRow) (db2 : EntityDB)
    (h : insertPerson db p = .ok db2) :
    ∃ hs, p.hash = some hs ∧
      db.persons.any (fun q => q.hash == some hs) = false ∧
      db2 = { db with persons := db.persons ++ [p] } := by
  unfold insertPerson at h
  split at h
  next heq => simp at h
  next hs heq =>
    split at h
    next hb => simp at h
    next hb =>
      injection h with h
      exact ⟨hs, heq, by simpa using hb, h.symm⟩

theorem insertChargeDescription_ok (db : EntityDB)
    (r : ChargeDescriptionRow) (db2 : EntityDB)
    (h : insertChargeDescription db r = .ok db2) :
    db2 = { db with charge_descriptions := db.charge_descriptions ++ [r] } := by
  unfold insertChargeDescription at h
  split at h
  case isTrue hb => simp at h
  case isFalse hb => injection h with h; exact h.symm

theorem insertStatute_ok (db : EntityDB) (r : StatuteRow) (db2 : EntityDB)
    (h : insertStatute db r = .ok db2) :
    db2 = { db with statutes := db.statutes ++ [r] } := by
  unfold insertStatute at h
  split at h
  case isTrue hb => simp at h
  case isFalse hb => injection h with h; exact h.symm

theorem insertHousing_ok (db : EntityDB) (r : HousingRow) (db2 : EntityDB)
    (h : insertHousing db r = .ok db2) :
    db2 = { db with housings := db.housings ++ [r] } := by
  unfold insertHousing at h
  injection h with h
  exact h.symm

theorem insertCourtBuilding_ok (db : EntityDB) (r : CourtBuildingRow)
    (db2 : EntityDB) (h : insertCourtBuilding db r = .ok db2) :
    db2 = { db with court_buildings := db.court_buildings ++ [r] } := by
  unfold insertCourtBuilding at h
  injection h with h
  exact h.symm

theorem insertCourtRoom_ok (db : EntityDB) (r : CourtRoomRow)
    (db2 : EntityDB) (h : insertCourtRoom db r = .ok db2) :
    db2 = { db with court_rooms := db.court_rooms ++ [r] } := by
  unfold insertCourtRoom at h
  split at h
  next heq => injection h with h; exact h.symm
  next b heq =>
    split at h
    next hc => injection h with h; exact h.symm
    next hc => simp at h

theorem insertStay_ok (db : EntityDB) (s : StayRow) (db2 : EntityDB)
    (h : insertStay db s = .ok db2) :
    db.persons.any (fun q => q.id == s.person_id) = true ∧
    db2 = { db with stays := db.stays ++ [s] } := by
  unfold insertStay at h
  split at h
  case isTrue hb =>
    split at h
    case isTrue hc => simp at h
    case isFalse hc => injection h with h; exact ⟨hb, h.symm⟩
  case isFalse hb => simp at h

theorem insertChargeHistory_ok (db : EntityDB) (r : ChargeHistoryRow)
    (db2 : EntityDB) (h : insertChargeHistory db r = .ok db2) :
    db.stays.any (fun q => q.id == r.stay_id) = true ∧
    db.statutes.any (fun q => q.id == r.statute_id) = true ∧
    db.charge_descriptions.any
      (fun q => q.id == r.charge_description_id) = true ∧
    db2 = { db with charge_histories := db.charge_histories ++ [r] } := by
  unfold insertChargeHistory at h
  split at h
  case isTrue h1 =>
    split at h
    case isTrue h2 =>
      split at h
      case isTrue h3 => injection h with h; exact ⟨h1, h2, h3, h.symm⟩
      case isFalse h3 => simp at h
    case isFalse h2 => simp at h
  case isFalse h1 => simp at h

theorem insertHousingHistory_ok (db : EntityDB) (r : HousingHistoryRow)
    (db2 : EntityDB) (h : insertHousingHistory db r = .ok db2) :
    db.stays.any (fun q => q.id == r.stay_id) = true ∧
    db.housings.any (fun q => q.id == r.housing_id) = true ∧
    db2 = { db with housing_histories := db.housing_histories ++ [r] } := by
  unfold insertHousingHistory at h
  split at h
  case isTrue h1 =>
    split at h
    case isTrue h2 => injection h with h; exact ⟨h1, h2, h.symm⟩
    case isFalse h2 => simp at h
  case isFalse h1 => simp at h

theorem insertCourtHistory_ok (db : EntityDB) (r : CourtHistoryRow)
    (db2 : EntityDB) (h : insertCourtHistory db r = .ok db2) :
    db.stays.any (fun q => q.id == r.stay_id) = true ∧
    db.court_rooms.any (fun q => q.id == r.court_room_id) = true ∧
    db2 = { db with court_histories := db.court_histories ++ [r] } := by
  unfold insertCourtHistory at h
  split at h
  case isTrue h1 =>
    split at h
    case isTrue h2 => injection h with h; exact ⟨h1, h2, h.symm⟩
    case isFalse h2 => simp at h
  case isFalse h1 => simp at h

theorem applyOp_refIntegrity (db : EntityDB) (op : DBOp) (db2 : EntityDB)
    (h : applyOp db op = .ok db2) (hdb : refIntegrity db) :
    refIntegrity db2 := by
  obtain ⟨h1, h2, h3, h4⟩ := hdb
  cases op with
  | person r =>
    obtain ⟨hs, hp, hany, hdb2⟩ := insertPerson_ok db r db2 h
    subst hdb2
    refine ⟨fun s hs2 => exists_mem_append_left (h1 s hs2), h2, h3, h4⟩
  | chargeDescription r =>
    have hdb2 := insertChargeDescription_ok db r db2 h
    subst hdb2
    refine ⟨h1, ?_, h3, h4⟩
    intro x hx
    obtain ⟨ha, hb, hc⟩ := h2 x hx
    exact ⟨ha, hb, exists_mem_append_left hc⟩
  | statute r =>
    have hdb2 := insertStatute_ok db r db2 h
    subst hdb2
    refine ⟨h1, ?_, h3, h4⟩
    intro x hx
    obtain ⟨ha, hb, hc⟩ := h2 x hx
    exact ⟨ha, exists_mem_append_left hb, hc⟩
  | housing r =>
    have hdb2 := insertHousing_ok db r db2 h
    subst hdb2
    refine ⟨h1, h2, ?_, h4⟩
    intro x hx
    obtain ⟨ha, hb⟩ := h3 x hx
    exact ⟨ha, exists_mem_append_left hb⟩
  | courtBuilding r =>
    have hdb2 := insertCourtBuilding_ok db r db2 h
    subst hdb2
    exact ⟨h1, h2, h3, h4⟩
  | courtRoom r =>
    have hdb2 := insertCourtRoom_ok db r db2 h
    subst hdb2
    refine ⟨h1, h2, h3, ?_⟩
    intro x hx
    obtain ⟨ha, hb⟩ := h4 x hx
    exact ⟨ha, exists_mem_append_left hb⟩
  | stay r =>
    obtain ⟨hany, hdb2⟩ := insertStay_ok db r db2 h
    subst hdb2
    refine ⟨?_, ?_, ?_, ?_⟩
    · intro s hs
      rcases List.mem_append.1 hs with hs | hs
      · exact h1 s hs
      · rw [List.mem_singleton] at hs
        subst hs
        exact exists_of_any_id db.persons (fun q => q.id) s.person_id hany
    · intro x hx
      obtain ⟨ha, hb, hc⟩ := h2 x hx
      exact ⟨exists_mem_append_left ha, hb, hc⟩
    · intro x hx
      obtain ⟨ha, hb⟩ := h3 x hx
      exact ⟨exists_mem_append_left ha, hb⟩
    · intro x hx
      obtain ⟨ha, hb⟩ := h4 x hx
      exact ⟨exists_mem_append_left ha, hb⟩
  | chargeHistory r =>
    obtain ⟨ha, hb, hc, hdb2⟩ := insertChargeHistory_ok db r db2 h
    subst hdb2
    refine ⟨h1, ?_, h3, h4⟩
    intro x hx
    rcases List.mem_append.1 hx with hx | hx
    · exact h2 x hx
    · rw [List.mem_singleton] at hx
      subst hx
      exact ⟨exists_of_any_id db.stays (fun q => q.id) x.stay_id ha,
        exists_of_any_id db.statutes (fun q => q.id) x.statute_id hb,
        exists_of_any_id db.charge_descriptions (fun q => q.id)
          x.charge_description_id hc⟩
  | housingHistory r =>
    obtain ⟨ha, hb, hdb2⟩ := insertHousingHistory_ok db r db2 h
    subst hdb2
    refine ⟨h1, h2, ?_, h4⟩
    intro x hx
    rcases List.mem_append.1 hx with hx | hx
    · exact h3 x hx
    · rw [List.mem_singleton] at hx
      subst hx
      exact ⟨exists_of_any_id db.stays (fun q => q.id) x.stay_id ha,
        exists_of_any_id db.housings (fun q => q.id) x.housing_id hb⟩
  | courtHistory r =>
    obtain ⟨ha, hb, hdb2⟩ := insertCourtHistory_ok db r db2 h
    subst hdb2
    refine ⟨h1, h2, h3, ?_⟩
    intro x hx
    rcases List.mem_append.1 hx with hx | hx
    · exact h4 x hx
    · rw [List.mem_singleton] at hx
      subst hx
      exact ⟨exists_of_any_id db.stays (fun q => q.id) x.stay_id ha,
        exists_of_any_id db.court_rooms (fun q => q.id) x.court_room_id hb⟩

theorem applyOps_refIntegrity (ops : List DBOp) (db : EntityDB)
    (hdb : refIntegrity db) : refIntegrity (applyOps db ops) := by
  induction ops generalizing db with
  | nil => exact hdb
  | cons op rest ih =>
    unfold applyOps
    match hop : applyOp db op with
    | .ok db2 => exact ih db2 (applyOp_refIntegrity db op db2 hop hdb)
    | .error e => exact ih db hdb

theorem applyOp_hashIntegrity (db : EntityDB) (op : DBOp) (db2 : EntityDB)
    (h : applyOp db op = .ok db2) (hdb : hashIntegrity db) :
    hashIntegrity db2 := by
  obtain ⟨hnn, hnd⟩ := hdb
  cases op with
  | person r =>
    obtain ⟨hs, hp, hany, hdb2⟩ := insertPerson_ok db r db2 h
    subst hdb2
    have hnot : some hs ∉ db.persons.map PersonRow.hash := by
      intro hmem
      obtain ⟨q, hq, hqh⟩ := List.mem_map.1 hmem
      have : db.persons.any (fun q => q.hash == some hs) = true :=
        List.any_eq_true.2 ⟨q, hq, by simp [hqh]⟩
      rw [hany] at this
      cases this
    constructor
    · intro p hp2
      rcases List.mem_append.1 hp2 with hx | hx
      · exact hnn p hx
      · rw [List.mem_singleton] at hx
        subst hx
        rw [hp]
        simp
    · rw [List.map_append]
      refine List.Nodup.append hnd (List.nodup_singleton _) ?_
      intro a ha hb
      rw [List.map_singleton, List.mem_singleton] at hb
      subst hb
      rw [hp] at ha
      exact hnot ha
  | chargeDescription r =>
    have hdb2 := insertChargeDescription_ok db r db2 h
    subst hdb2
    exact ⟨hnn, hnd⟩
  | statute r =>
    have hdb2 := insertStatute_ok db r db2 h
    subst hdb2
    exact ⟨hnn, hnd⟩
  | housing r =>
    have hdb2 := insertHousing_ok db r db2 h
    subst hdb2
    exact ⟨hnn, hnd⟩
  | courtBuilding r =>
    have hdb2 := insertCourtBuilding_ok db r db2 h
    subst hdb2
    exact ⟨hnn, hnd⟩
  | courtRoom r =>
    have hdb2 := insertCourtRoom_ok db r db2 h
    subst hdb2
    exact ⟨hnn, hnd⟩
  | stay r =>
    obtain ⟨hany, hdb2⟩ := insertStay_ok db r db2 h
    subst hdb2
    exact ⟨hnn, hnd⟩
  | chargeHistory r =>
    obtain ⟨ha, hb, hc, hdb2⟩ := insertChargeHistory_ok db r db2 h
    subst hdb2
    exact ⟨hnn, hnd⟩
  | housingHistory r =>
    obtain ⟨ha, hb, hdb2⟩ := insertHousingHistory_ok db r db2 h
    subst hdb2
    exact ⟨hnn, hnd⟩
  | courtHistory r =>
    obtain ⟨ha, hb, hdb2⟩ := insertCourtHistory_ok db r db2 h
    subst hdb2
    exact ⟨hnn, hnd⟩

theorem applyOps_hashIntegrity (ops : List DBOp) (db : EntityDB)
    (hdb : hashIntegrity db) : hashIntegrity (applyOps db ops) := by
  induction ops generalizing db with
  | nil => exact hdb
  | cons op rest ih =>
    unfold applyOps
    match hop : applyOp db op with
    | .ok db2 => exact ih db2 (applyOp_hashIntegrity db op db2 hop hdb)
    | .error e => exact ih db hdb

/-- C4: (1) referential integrity holds after any sequence of insertions
into an initially empty Entity Store — every history row references an
existing stay and existing reference entities, and every stay references an
existing person; (2) inserting a `ChargeHistory` row whose `stay_id` names
no existing stay fails with `ReferentialIntegrity`. -/
theorem referential_integrity_holds :
    (∀ ops : List DBOp, refIntegrity (applyOps EntityDB.empty ops)) ∧
    (∀ (db : EntityDB) (r : ChargeHistoryRow),
      db.stays.any (fun q => q.id == r.stay_id) = false →
      insertChargeHistory db r = .error .ReferentialIntegrity) := by
  constructor
  · intro ops
    refine applyOps_refIntegrity ops EntityDB.empty ⟨?_, ?_, ?_, ?_⟩ <;>
      exact fun x hx => absurd hx (List.not_mem_nil x)
  · intro db r h
    unfold insertChargeHistory
    rw [h]
    simp

/-- Witness for C4: inserting a `ChargeHistory` with `stay_id = 1` into the
empty store fails with `ReferentialIntegrity`. -/
theorem referential_integrity_holds_witness :
    EntityDB.empty.stays.any
      (fun q => q.id == (ChargeHistoryRow.mk 1 1 1 1 none).stay_id)
      = false ∧
    insertChargeHistory EntityDB.empty (ChargeHistoryRow.mk 1 1 1 1 none)
      = Except.error DBError.ReferentialIntegrity :=
  ⟨rfl,
   referential_integrity_holds.2 EntityDB.empty
     (ChargeHistoryRow.mk 1 1 1 1 none) rfl⟩

/-- C8: (1) inserting a `Person` whose `hash` equals that of an existing
row fails with `DuplicateKey`; (2) inserting a `Person` with a null `hash`
fails (`nullable=False`); (3) after any sequence of insertions into an
initially empty Entity Store, no stored `Person` has a null `hash` and the
stored hashes are pairwise distinct. -/
theorem person_hash_unique_required :
    (∀ (db : EntityDB) (p : PersonRow) (hs : String), p.hash = some hs →
      db.persons.any (fun q => q.hash == some hs) = true →
      insertPerson db p = .error .DuplicateKey) ∧
    (∀ (db : EntityDB) (p : PersonRow), p.hash = none →
      insertPerson db p = .error .NotNullViolation) ∧
    (∀ ops : List DBOp, hashIntegrity (applyOps EntityDB.empty ops)) := by
  refine ⟨?_, ?_, ?_⟩
  · intro db p hs hp hany
    unfold insertPerson
    rw [hp]
    simp [hany]
  · intro db p hp
    unfold insertPerson
    rw [hp]
  · intro ops
    exact applyOps_hashIntegrity ops EntityDB.empty
      ⟨fun x hx => absurd hx (List.not_mem_nil x), List.nodup_nil⟩

/-- Witness for C8: a duplicate hash `abc123` is rejected with
`DuplicateKey`, and a null hash is rejected. -/
theorem person_hash_unique_required_witness :
    (PersonRow.mk 2 (some "abc123") none none none).hash = some "abc123" ∧
    ({ EntityDB.empty with
        persons := [PersonRow.mk 1 (some "abc123") none none none]
      }).persons.any (fun q => q.hash == some "abc123") = true ∧
    insertPerson
      { EntityDB.empty with
        persons := [PersonRow.mk 1 (some "abc123") none none none] }
      (PersonRow.mk 2 (some "abc123") none none none)
      = Except.error DBError.DuplicateKey ∧
    (PersonRow.mk 3 none none none none).hash = none ∧
    insertPerson EntityDB.empty (PersonRow.mk 3 none none none none)
      = Except.error DBError.NotNullViolation :=
  ⟨rfl, by decide,
   person_hash_unique_required.1
     { EntityDB.empty with
       persons := [PersonRow.mk 1 (some "abc123") none none none] }
     (PersonRow.mk 2 (some "abc123") none none none) "abc123" rfl
     (by decide),
   rfl,
   person_hash_unique_required.2.1 EntityDB.empty
     (PersonRow.mk 3 none none none none) rfl⟩
